import Mathlib

/-!
Verification of the libfm-qt fragment consisting of Fm2::FileInfoJob::run
(src/core/fileinfojob.cpp) and Fm::FileDialog (filedialog.cpp).

The embedding is shallow: Qt/GLib collaborators (widgets, GFile queries,
signal emission) are modelled as explicit data.  A file path is a String,
the GLib file query is an arbitrary function `q`, and the cancellation flag
read at iteration `i` of a job loop is an oracle `c : Nat → Bool` (a second
thread may flip the flag at any time, so each read is independent).
Signal emissions are recorded as values in the produced output records.
-/

set_option autoImplicit false
set_option maxRecDepth 4000

/-! ## Fm2::FileInfoJob::run (src/core/fileinfojob.cpp lines 6-19)

The C++ loop iterates over paths_, and for every iteration whose
isCancelled() check returns false it queries the file info, appends the
resulting record to results_ and emits gotInfo; after the loop it emits
finished once.  The file-info type is abstract (a type parameter), since
the FileInfo constructor lives outside this fragment. -/

inductive JobEvent (α : Type) where
  | gotInfo (path : String) (info : α)
  | finished
deriving DecidableEq

structure RunOutput (α : Type) where
  results : List α
  events : List (JobEvent α)
deriving DecidableEq

/-- The loop body of FileInfoJob::run: walks the remaining paths, with `i`
counting how many isCancelled() reads happened so far, accumulating
results_ and the emitted signals. -/
def runJobGo {α : Type} (q : String → α) (c : Nat → Bool) :
    List String → Nat → List α → List (JobEvent α) → RunOutput α
  | [], _, results, events => ⟨results, events ++ [JobEvent.finished]⟩
  | path :: rest, i, results, events =>
    if c i then
      runJobGo q c rest (i + 1) results events
    else
      let fileInfo := q path
      runJobGo q c rest (i + 1) (results ++ [fileInfo])
        (events ++ [JobEvent.gotInfo path fileInfo])

/-- FileInfoJob::run: results_ starts empty and the loop starts at the head
of paths_ with no signal emitted yet. -/
def runJob {α : Type} (q : String → α) (c : Nat → Bool) (paths : List String) :
    RunOutput α :=
  runJobGo q c paths 0 [] []

/-! ## Fm::FileDialog (filedialog.cpp)

The dialog state keeps the C++ member fields this fragment reads or
writes, plus the texts of the toolkit widgets the dialog manipulates
(labels, the Ok / Cancel buttons, the Ok button enabled flag, the view's
selection mode).  QUrl / Fm::FilePath values are identified with their URI
strings; FilePath::child appends a slash-separated component. -/

inductive FileMode where
  | anyFile
  | existingFile
  | directory
  | existingFiles
  | directoryOnly
deriving DecidableEq

inductive ViewMode where
  | iconMode
  | thumbnailMode
  | compactMode
  | detailedListMode
deriving DecidableEq

inductive SelectionMode where
  | singleSelection
  | extendedSelection
deriving DecidableEq

inductive DialogLabel where
  | lookIn
  | fileName
  | fileType
  | accept
  | reject
deriving DecidableEq

/-- The slice of Fm::FileInfo the dialog fragment reads: path, display
name, and the isDir / isShortcut class tests. -/
structure FileInfoM where
  path : String
  displayName : String
  isDir : Bool
  isShortcut : Bool
deriving DecidableEq

structure DialogState where
  selectedFiles : List String
  fileMode : FileMode
  viewMode : ViewMode
  selectionMode : SelectionMode
  okEnabled : Bool
  directoryPath : String
  defaultSuffix : String
  currentNameFilter : String
  lookInLabel : String
  fileNameLabel : String
  fileTypeLabel : String
  okButtonText : String
  cancelButtonText : String
deriving DecidableEq

/-- FileDialog::selectedFiles (lines 393-395). -/
def FileDialog.selectedFilesAccessor (s : DialogState) : List String :=
  s.selectedFiles

/-- FileDialog::updateSelectionMode (lines 312-315). -/
def FileDialog.updateSelectionMode (s : DialogState) : DialogState :=
  { s with selectionMode :=
      if s.fileMode = FileMode.existingFiles then SelectionMode.extendedSelection
      else SelectionMode.singleSelection }

/-- FileDialog::setViewMode (lines 424-445): stores the mode, updates the
view and the checked toolbar action (toolkit state outside the model),
then calls updateSelectionMode. -/
def FileDialog.setViewMode (s : DialogState) (mode : ViewMode) : DialogState :=
  FileDialog.updateSelectionMode { s with viewMode := mode }

/-- FileDialog::setFileMode (lines 448-457): the deprecated DirectoryOnly
value is mapped to Directory before being stored. -/
def FileDialog.setFileMode (s : DialogState) (mode : FileMode) : DialogState :=
  let mode := if mode = FileMode.directoryOnly then FileMode.directory else mode
  FileDialog.updateSelectionMode { s with fileMode := mode }

/-- FileDialog::selectNameFilter (lines 398-407). -/
def FileDialog.selectNameFilter (s : DialogState) (filter : String) : DialogState :=
  if filter ≠ s.currentNameFilter then { s with currentNameFilter := filter } else s

/-- FileDialog::setDirectoryPath (lines 180-197), restricted to the state
this model keeps (the model/side-pane updates are toolkit state). -/
def FileDialog.setDirectoryPath (s : DialogState) (directory : String) : DialogState :=
  { s with directoryPath := directory }

/-- FileDialog::setLabelText (lines 500-520). -/
def FileDialog.setLabelText (s : DialogState) (label : DialogLabel) (text : String) :
    DialogState :=
  match label with
  | DialogLabel.lookIn => { s with lookInLabel := text }
  | DialogLabel.fileName => { s with fileNameLabel := text }
  | DialogLabel.fileType => { s with fileTypeLabel := text }
  | DialogLabel.accept => { s with okButtonText := text }
  | DialogLabel.reject => { s with cancelButtonText := text }

/-- FileDialog::labelText (lines 522-544).  A local QString text starts
empty; the LookIn / FileName / FileType cases assign the widget text to it.
In the Accept and Reject cases the C++ evaluates
buttonBox->button(...)->text() as an expression statement and never assigns
the result to text, so the initial empty string is returned. -/
def FileDialog.labelText (s : DialogState) (label : DialogLabel) : String :=
  match label with
  | DialogLabel.lookIn => s.lookInLabel
  | DialogLabel.fileName => s.fileNameLabel
  | DialogLabel.fileType => s.fileTypeLabel
  | DialogLabel.accept => ""
  | DialogLabel.reject => ""

/-- The FileDialog constructor (lines 20-112), restricted to the modelled
state: the member-init list of the constructor sets fileMode_ to AnyFile and viewMode_
to DetailedListMode, then the body calls updateSelectionMode (line 58) and
setViewMode(viewMode_) (line 97).  Widget texts start empty. -/
def FileDialog.construct : DialogState :=
  let s : DialogState :=
    { selectedFiles := []
      fileMode := FileMode.anyFile
      viewMode := ViewMode.detailedListMode
      selectionMode := SelectionMode.singleSelection
      okEnabled := true
      directoryPath := ""
      defaultSuffix := ""
      currentNameFilter := ""
      lookInLabel := ""
      fileNameLabel := ""
      fileTypeLabel := ""
      okButtonText := ""
      cancelButtonText := "" }
  FileDialog.setViewMode (FileDialog.updateSelectionMode s) ViewMode.detailedListMode

/-! ### FileDialog::accept (lines 117-167)

The filename entry may hold several names quoted and separated by
whitespace; QString::split with the QRegExp "\"\s+\"" is modelled by an
explicit scanner over the character list. -/

/-- Recognise one occurrence of the separator regexp, a quote followed by
at least one whitespace character followed by a quote, at the head of the
character list; returns the remainder after the match. -/
def matchSep : List Char → Option (List Char)
  | '"' :: rest =>
    if (rest.takeWhile Char.isWhitespace).isEmpty then none
    else
      match rest.dropWhile Char.isWhitespace with
      | '"' :: r2 => some r2
      | _ => none
  | _ => none

/-- Split on every leftmost non-overlapping separator match, keeping empty
parts as QString::split does.  The fuel starts at the length of the input;
every step consumes at least one character, so it never runs out before
the input does. -/
def splitSepGo : Nat → List Char → List Char → List (List Char)
  | 0, _, cur => [cur.reverse]
  | _ + 1, [], cur => [cur.reverse]
  | fuel + 1, c :: rest, cur =>
    match matchSep (c :: rest) with
    | some r => cur.reverse :: splitSepGo fuel r []
    | none => splitSepGo fuel rest (c :: cur)

def splitSep (cs : List Char) : List (List Char) :=
  splitSepGo cs.length cs []

/-- QString::lastIndexOf for a single character. -/
def lastIndexOfChar (cs : List Char) (c : Char) : Option Nat :=
  match cs.reverse.findIdx? (· == c) with
  | some k => some (cs.length - 1 - k)
  | none => none

/-- Lines 134-144: if the text holds a quote, the part between the first
and last quote is split on the quote-whitespace-quote separator, otherwise
the whole text is a single name.  QString::mid(pos, n) with n negative
(possible only when the first and last quote coincide) returns the rest of
the string from pos. -/
def parseFileNames (fileNames : String) : List String :=
  let cs := fileNames.data
  match cs.findIdx? (· == '"'), lastIndexOfChar cs '"' with
  | some firstQuote, some lastQuote =>
    let mid :=
      if lastQuote ≤ firstQuote then cs.drop (firstQuote + 1)
      else (cs.drop (firstQuote + 1)).take (lastQuote - firstQuote - 1)
    (splitSep mid).map (fun chars => String.mk chars)
  | _, _ => [fileNames]

structure AcceptOutcome where
  state : DialogState
  messageBox : Option String
  jobStarted : Option (List String)
deriving DecidableEq

/-- Lines 158-167: disable the Ok button, then run a FileInfoJob on the
path list built from selectedFiles_; its finished signal is handled by
onFileInfoJobFinished. -/
def FileDialog.startInfoJob (s : DialogState) : AcceptOutcome :=
  { state := { s with okEnabled := false }
    messageBox := none
    jobStarted := some s.selectedFiles }

/-- FileDialog::accept (lines 117-167).  The argument fileNames is the
current text of the filename entry. -/
def FileDialog.accept (s : DialogState) (fileNames : String) : AcceptOutcome :=
  let s1 := { s with selectedFiles := [] }
  if fileNames = "" then
    if s1.fileMode = FileMode.directory then
      FileDialog.startInfoJob { s1 with selectedFiles := [s1.directoryPath] }
    else
      { state := s1, messageBox := some "Please select a file", jobStarted := none }
  else
    let parsedNames := parseFileNames fileNames
    let named := parsedNames.map (fun name =>
      if !s1.defaultSuffix.isEmpty && !(name.data.contains '.') then
        name ++ "." ++ s1.defaultSuffix
      else name)
    let urls := named.map (fun name => s1.directoryPath ++ "/" ++ name)
    FileDialog.startInfoJob { s1 with selectedFiles := urls }

/-! ### FileDialog::onFileInfoJobFinished (lines 328-380)

The validation loop over the job's paths and files lists.  The C++ for
loop on the index i is translated with an explicit fuel argument equal to
the number of paths: every iteration increases i by one (or by two in the
skip branch) and consumes one unit of fuel, so from i = 0 the fuel never
runs out before i reaches paths.size(); the fuel-exhausted case returns
the same "no error" value the loop-exit does.  path.displayName() is
identified with the path string. -/

def errPathNotExist (path : String) : String :=
  "Path \"" ++ path ++ "\" does not exist"

def errNotDirectory (path : String) : String :=
  "\"" ++ path ++ "\" is not a directory"

def errNotFile (path : String) : String :=
  "\"" ++ path ++ "\" is not a file"

/-- The loop of lines 339-368.  The condition of line 341,
i >= files.size() || files[i]->path() != path, is rendered by matching on
files[i]?; the branch for a missing file info errors unless fileMode_
is AnyFile, in which case ++i and the loop increment skip the next entry
(i + 2). -/
def checkFilesFrom (fileMode : FileMode) (paths : List String) (files : List FileInfoM) :
    Nat → Nat → Option String
  | 0, _ => none
  | fuel + 1, i =>
    if i < paths.length then
      let path := paths[i]?.getD ""
      match files[i]? with
      | none =>
        if fileMode = FileMode.anyFile then
          checkFilesFrom fileMode paths files fuel (i + 2)
        else some (errPathNotExist path)
      | some file =>
        if file.path ≠ path then
          if fileMode = FileMode.anyFile then
            checkFilesFrom fileMode paths files fuel (i + 2)
          else some (errPathNotExist path)
        else if fileMode = FileMode.directory then
          if file.isDir then checkFilesFrom fileMode paths files fuel (i + 1)
          else some (errNotDirectory path)
        else if file.isDir || file.isShortcut then some (errNotFile path)
        else checkFilesFrom fileMode paths files fuel (i + 1)
    else none

/-- The whole validation loop of onFileInfoJobFinished: the error QString
is empty at entry and the loop starts at index 0; `none` stands for the
empty error string. -/
def FileDialog.checkFiles (fileMode : FileMode) (paths : List String)
    (files : List FileInfoM) : Option String :=
  checkFilesFrom fileMode paths files paths.length 0

/-- The indices of the path list whose existence and type checks the loop
actually performs, mirroring the control flow of checkFilesFrom. -/
def examinedFrom (fileMode : FileMode) (paths : List String) (files : List FileInfoM) :
    Nat → Nat → List Nat
  | 0, _ => []
  | fuel + 1, i =>
    if i < paths.length then
      let path := paths[i]?.getD ""
      match files[i]? with
      | none =>
        if fileMode = FileMode.anyFile then
          i :: examinedFrom fileMode paths files fuel (i + 2)
        else [i]
      | some file =>
        if file.path ≠ path then
          if fileMode = FileMode.anyFile then
            i :: examinedFrom fileMode paths files fuel (i + 2)
          else [i]
        else if fileMode = FileMode.directory then
          if file.isDir then i :: examinedFrom fileMode paths files fuel (i + 1)
          else [i]
        else if file.isDir || file.isShortcut then [i]
        else i :: examinedFrom fileMode paths files fuel (i + 1)
    else []

def FileDialog.examinedIndices (fileMode : FileMode) (paths : List String)
    (files : List FileInfoM) : List Nat :=
  examinedFrom fileMode paths files paths.length 0

/-- The per-path validation requirement as the specification words it: the
path must exist (have a matching file info) when fileMode_ is not AnyFile;
an existing path must be a directory when fileMode_ is Directory, and must
be neither a directory nor a shortcut otherwise. -/
def pathPasses (fileMode : FileMode) (paths : List String) (files : List FileInfoM)
    (i : Nat) : Bool :=
  match files[i]? with
  | some file =>
    if file.path = paths[i]?.getD "" then
      match fileMode with
      | FileMode.directory => file.isDir
      | _ => !file.isDir && !file.isShortcut
    else decide (fileMode = FileMode.anyFile)
  | none => decide (fileMode = FileMode.anyFile)

/-- The condition of line 341 at index i: the path has no matching file
info. -/
def missingAt (paths : List String) (files : List FileInfoM) (i : Nat) : Bool :=
  match files[i]? with
  | none => true
  | some file => decide (file.path ≠ paths[i]?.getD "")

structure JobResult where
  cancelled : Bool
  paths : List String
  files : List FileInfoM
deriving DecidableEq

structure FinishOutcome where
  state : DialogState
  accepted : Bool
  rejected : Bool
  messageBox : Option String
  filesSelectedEmitted : Option (List String)
  fileSelectedEmitted : Option String
deriving DecidableEq

/-- FileDialog::doAccept (lines 317-326): emit filesSelected, emit
fileSelected when exactly one file is selected, then QDialog::accept. -/
def FileDialog.doAccept (s : DialogState) : FinishOutcome :=
  { state := s
    accepted := true
    rejected := false
    messageBox := none
    filesSelectedEmitted := some s.selectedFiles
    fileSelectedEmitted :=
      if s.selectedFiles.length = 1 then s.selectedFiles.head? else none }

/-- FileDialog::onFileInfoJobFinished (lines 328-380): on a cancelled job
clear selectedFiles_ and reject; otherwise run the validation loop and
either doAccept (empty error) or show a critical message box and clear
selectedFiles_; in every case re-enable the Ok button at the end. -/
def FileDialog.onFileInfoJobFinished (s : DialogState) (job : JobResult) :
    FinishOutcome :=
  let out :=
    if job.cancelled then
      { state := { s with selectedFiles := [] }
        accepted := false
        rejected := true
        messageBox := none
        filesSelectedEmitted := none
        fileSelectedEmitted := none }
    else
      match FileDialog.checkFiles s.fileMode job.paths job.files with
      | none => FileDialog.doAccept s
      | some error =>
        { state := { s with selectedFiles := [] }
          accepted := false
          rejected := false
          messageBox := some error
          filesSelectedEmitted := none
          fileSelectedEmitted := none }
  { out with state := { out.state with okEnabled := true } }

/-! ### FileDialog::FileDialogFilter (lines 547-592)

A compiled QRegExp wildcard pattern is modelled as its exactMatch
predicate on display names; update() is modelled by the glob strings it
extracts from the current name filter. -/

/-- FileDialogFilter::filterAcceptsRow (lines 547-571): in Directory mode
a non-directory row is rejected at once; in the other modes a directory
row is accepted at once; every row that falls through is accepted iff its
display name exactly matches one of the patterns. -/
def FileDialogFilter.filterAcceptsRow (fileMode : FileMode)
    (patterns : List (String → Bool)) (info : FileInfoM) : Bool :=
  if fileMode = FileMode.directory ∧ info.isDir = false then false
  else if fileMode ≠ FileMode.directory ∧ info.isDir = true then true
  else patterns.any (fun pattern => pattern info.displayName)

/-- Whitespace-separated tokens of a character list, as
QString::simplified followed by split(' ') produces them on a string with
at least one non-blank character. -/
def wordsAux : List Char → List Char → List (List Char)
  | [], cur => if cur.isEmpty then [] else [cur.reverse]
  | c :: rest, cur =>
    if c.isWhitespace then
      if cur.isEmpty then wordsAux rest [] else cur.reverse :: wordsAux rest []
    else wordsAux rest (c :: cur)

/-- FileDialogFilter::update (lines 573-592), returning the glob strings
that are compiled into case-insensitive wildcard QRegExp patterns: take
the part of the current name filter between parentheses when a left
parenthesis is present (up to the matching right parenthesis or the end),
then split it on whitespace; an all-blank filter yields the single empty
glob, as QString("").split(' ') does. -/
def FileDialogFilter.update (currentNameFilter : String) : List String :=
  let cs := currentNameFilter.data
  let inner :=
    match cs.findIdx? (· == '(') with
    | some left =>
      let afterLeft := cs.drop (left + 1)
      match afterLeft.findIdx? (· == ')') with
      | some right => afterLeft.take right
      | none => afterLeft
    | none => cs
  let globs := (wordsAux inner []).map (fun chars => String.mk chars)
  if globs.isEmpty then [""] else globs

/-! ### Sequences of dialog operations (C10) -/

/-- The modelled state-changing entry points of FileDialog. -/
inductive DialogOp where
  | setFileMode (mode : FileMode)
  | setViewMode (mode : ViewMode)
  | setLabelText (label : DialogLabel) (text : String)
  | selectNameFilter (filter : String)
  | setDirectoryPath (directory : String)
  | accept (fileNames : String)
  | jobFinished (job : JobResult)
  | reject

def applyOp (s : DialogState) (op : DialogOp) : DialogState :=
  match op with
  | DialogOp.setFileMode mode => FileDialog.setFileMode s mode
  | DialogOp.setViewMode mode => FileDialog.setViewMode s mode
  | DialogOp.setLabelText label text => FileDialog.setLabelText s label text
  | DialogOp.selectNameFilter filter => FileDialog.selectNameFilter s filter
  | DialogOp.setDirectoryPath directory => FileDialog.setDirectoryPath s directory
  | DialogOp.accept fileNames => (FileDialog.accept s fileNames).state
  | DialogOp.jobFinished job => (FileDialog.onFileInfoJobFinished s job).state
  | DialogOp.reject => s

/-! ### Cancellation as an early exit (C2) -/

/-- The early-exit variant of the loop described by the spec: it breaks out
of the loop at the first cancelled check, then emits finished. -/
def runJobBreakGo {α : Type} (q : String → α) (c : Nat → Bool) :
    List String → Nat → List α → List (JobEvent α) → RunOutput α
  | [], _, results, events => ⟨results, events ++ [JobEvent.finished]⟩
  | path :: rest, i, results, events =>
    if c i then
      ⟨results, events ++ [JobEvent.finished]⟩
    else
      let fileInfo := q path
      runJobBreakGo q c rest (i + 1) (results ++ [fileInfo])
        (events ++ [JobEvent.gotInfo path fileInfo])

def runJobBreak {α : Type} (q : String → α) (c : Nat → Bool) (paths : List String) :
    RunOutput α :=
  runJobBreakGo q c paths 0 [] []

/-- The file-type filter as claim C8 words it: in Directory mode a row is
accepted iff its file info is a directory (unconditionally on the name);
otherwise directories are accepted unconditionally and non-directories iff
the display name matches a pattern. -/
def FileDialogFilter.filterAcceptsRowClaimed (fileMode : FileMode)
    (patterns : List (String → Bool)) (info : FileInfoM) : Bool :=
  if fileMode = FileMode.directory then info.isDir
  else if info.isDir then true
  else patterns.any (fun pattern => pattern info.displayName)

/-! ## Theorems -/

theorem runJobGo_spec {α : Type} (q : String → α) (c : Nat → Bool) :
    ∀ (ps : List String) (i : Nat) (res : List α) (evs : List (JobEvent α)),
      runJobGo q c ps i res evs =
        ⟨res ++ ((List.enumFrom i ps).filter (fun pr => !c pr.1)).map (fun pr => q pr.2),
         evs ++ ((List.enumFrom i ps).filter (fun pr => !c pr.1)).map
             (fun pr => JobEvent.gotInfo pr.2 (q pr.2)) ++ [JobEvent.finished]⟩ := by
  intro ps
  induction ps with
  | nil => intro i res evs; simp [runJobGo, List.enumFrom]
  | cons p rest ih =>
    intro i res evs
    rw [runJobGo]
    cases hc : c i with
    | true => rw [if_pos rfl, ih]; simp [List.enumFrom, hc]
    | false => rw [if_neg (by simp), ih]; simp [List.enumFrom, hc]

/-- C1: FileInfoJob::run is a single-pass, order-preserving batch.  The run
visits the path list once, in order; exactly the iterations whose
cancellation check is false contribute: each appends one queried file info
to results_ (so results_ preserves the order of paths_) and emits exactly
one gotInfo event for that path, and after the loop finished is emitted
exactly once. -/
theorem fileInfoJob_run_single_pass {α : Type} (q : String → α) (c : Nat → Bool)
    (paths : List String) :
    runJob q c paths =
      ⟨((List.enum paths).filter (fun pr => !c pr.1)).map (fun pr => q pr.2),
       ((List.enum paths).filter (fun pr => !c pr.1)).map
           (fun pr => JobEvent.gotInfo pr.2 (q pr.2)) ++ [JobEvent.finished]⟩ := by
  rw [runJob, runJobGo_spec]
  simp [List.enum]

theorem runJobGo_all_cancelled {α : Type} (q : String → α) (c : Nat → Bool) :
    ∀ (ps : List String) (i : Nat) (res : List α) (evs : List (JobEvent α)),
      (∀ j, i ≤ j → c j = true) →
      runJobGo q c ps i res evs = ⟨res, evs ++ [JobEvent.finished]⟩ := by
  intro ps
  induction ps with
  | nil => intro i res evs _; rfl
  | cons p rest ih =>
    intro i res evs hall
    rw [runJobGo, if_pos (hall i (Nat.le_refl i))]
    exact ih (i + 1) res evs (fun j hj => hall j (Nat.le_of_succ_le hj))

/-- C2: assuming the cancellation flag is monotone (once isCancelled() is
true it stays true), the per-iteration skip loop of FileInfoJob::run is
equivalent to the loop that breaks out at the first cancelled check: no
gotInfo and no results_ append happens from the cancelled path on, and
finished is still emitted exactly once. -/
theorem fileInfoJob_cancel_early_exit {α : Type} (q : String → α) (c : Nat → Bool)
    (paths : List String)
    (hmono : ∀ i j : Nat, i ≤ j → c i = true → c j = true) :
    runJob q c paths = runJobBreak q c paths := by
  rw [runJob, runJobBreak]
  suffices h : ∀ (ps : List String) (i : Nat) (res : List α) (evs : List (JobEvent α)),
      runJobGo q c ps i res evs = runJobBreakGo q c ps i res evs by
    exact h paths 0 [] []
  intro ps
  induction ps with
  | nil => intro i res evs; rfl
  | cons p rest ih =>
    intro i res evs
    rw [runJobGo, runJobBreakGo]
    cases hc : c i with
    | true =>
      rw [if_pos rfl, if_pos rfl]
      exact runJobGo_all_cancelled q c rest (i + 1) res evs
        (fun j hj => hmono i j (Nat.le_of_succ_le hj) hc)
    | false =>
      rw [if_neg (by simp), if_neg (by simp)]
      exact ih (i + 1) (res ++ [q p]) (evs ++ [JobEvent.gotInfo p (q p)])

/-- Witness for C2 at a concrete monotone flag (never cancelled). -/
theorem fileInfoJob_cancel_early_exit_witness :
    runJob (fun _ => (0 : Nat)) (fun _ => false) ["a", "b"] =
      runJobBreak (fun _ => (0 : Nat)) (fun _ => false) ["a", "b"] :=
  fileInfoJob_cancel_early_exit (fun _ => (0 : Nat)) (fun _ => false) ["a", "b"]
    (fun _ _ _ h => h)


/-- C6 (code bug): the label-text accessors do not round-trip for the
Accept (and symmetrically the Reject) label.  setLabelText(Accept, "Open")
does store "Open" as the Ok button text, but labelText(Accept) evaluates
the button text without assigning it to the returned local, so it returns
the empty string instead of "Open". -/
theorem labelText_accept_no_roundtrip :
    (FileDialog.setLabelText FileDialog.construct DialogLabel.accept "Open").okButtonText
        = "Open" ∧
    FileDialog.labelText
        (FileDialog.setLabelText FileDialog.construct DialogLabel.accept "Open")
        DialogLabel.accept = "" :=
  ⟨rfl, rfl⟩

/-- C8 counterexample: in Directory mode a directory row whose display
name matches no pattern is rejected by filterAcceptsRow, while the claim
(directory rows accepted iff isDir) accepts it. -/
theorem filterAcceptsRow_directory_counterexample :
    FileDialogFilter.filterAcceptsRow FileMode.directory [fun name => name == "a"]
        ⟨"d", "d", true, false⟩ = false ∧
    FileDialogFilter.filterAcceptsRowClaimed FileMode.directory [fun name => name == "a"]
        ⟨"d", "d", true, false⟩ = true := by
  exact ⟨rfl, rfl⟩

/-- C8 (amended): filterAcceptsRow accepts a row in Directory mode iff it
is a directory AND its display name matches at least one pattern; in every
other mode a directory row is accepted unconditionally and a non-directory
row iff its display name matches at least one pattern. -/
theorem filterAcceptsRow_spec (fileMode : FileMode) (patterns : List (String → Bool))
    (info : FileInfoM) :
    FileDialogFilter.filterAcceptsRow fileMode patterns info =
      (if fileMode = FileMode.directory then
        info.isDir && patterns.any (fun pattern => pattern info.displayName)
      else if info.isDir then true
      else patterns.any (fun pattern => pattern info.displayName)) := by
  rcases info with ⟨path, name, isDir, isShortcut⟩
  cases isDir <;> by_cases hm : fileMode = FileMode.directory <;>
    simp [FileDialogFilter.filterAcceptsRow, hm]

/-- C9: after setFileMode, setViewMode or the constructor, the folder
view's selection mode is ExtendedSelection exactly when fileMode_ is
ExistingFiles, and SingleSelection for every other file mode. -/
theorem selection_mode_matches_file_mode (s : DialogState) (m : FileMode) (vm : ViewMode) :
    ((FileDialog.setFileMode s m).selectionMode =
      if (FileDialog.setFileMode s m).fileMode = FileMode.existingFiles then
        SelectionMode.extendedSelection else SelectionMode.singleSelection)
    ∧ ((FileDialog.setViewMode s vm).selectionMode =
      if (FileDialog.setViewMode s vm).fileMode = FileMode.existingFiles then
        SelectionMode.extendedSelection else SelectionMode.singleSelection)
    ∧ (FileDialog.construct.selectionMode =
      if FileDialog.construct.fileMode = FileMode.existingFiles then
        SelectionMode.extendedSelection else SelectionMode.singleSelection) := by
  refine ⟨?_, ?_, by decide⟩
  · simp [FileDialog.setFileMode, FileDialog.updateSelectionMode]
  · simp [FileDialog.setViewMode, FileDialog.updateSelectionMode]

theorem accept_state_fileMode (s : DialogState) (fileNames : String) :
    (FileDialog.accept s fileNames).state.fileMode = s.fileMode := by
  simp only [FileDialog.accept, FileDialog.startInfoJob]
  split_ifs <;> rfl

theorem onFileInfoJobFinished_state_fileMode (s : DialogState) (job : JobResult) :
    (FileDialog.onFileInfoJobFinished s job).state.fileMode = s.fileMode := by
  simp only [FileDialog.onFileInfoJobFinished, FileDialog.doAccept]
  split
  · rfl
  · split <;> rfl

/-- C5: accept() disables the Ok button whenever it starts the
FileInfoJob, and onFileInfoJobFinished leaves the Ok button enabled on
every outcome (cancelled, validation error, or success). -/
theorem ok_button_disabled_during_validation (s : DialogState) (fileNames : String)
    (job : JobResult) :
    ((FileDialog.accept s fileNames).jobStarted.isSome = true →
      (FileDialog.accept s fileNames).state.okEnabled = false)
    ∧ (FileDialog.onFileInfoJobFinished s job).state.okEnabled = true := by
  constructor
  · by_cases h1 : fileNames = ""
    · by_cases h2 : s.fileMode = FileMode.directory <;>
        simp [FileDialog.accept, FileDialog.startInfoJob, h1, h2]
    · simp [FileDialog.accept, FileDialog.startInfoJob, h1]
  · simp only [FileDialog.onFileInfoJobFinished, FileDialog.doAccept]

/-- Witness for C5: a run that starts the job has the Ok button disabled,
and a finished job re-enables it. -/
theorem ok_button_disabled_during_validation_witness :
    (FileDialog.accept FileDialog.construct "x").jobStarted.isSome = true ∧
    (FileDialog.accept FileDialog.construct "x").state.okEnabled = false ∧
    (FileDialog.onFileInfoJobFinished FileDialog.construct
      { cancelled := true, paths := [], files := [] }).state.okEnabled = true :=
  ⟨by decide,
   (ok_button_disabled_during_validation FileDialog.construct "x"
     { cancelled := true, paths := [], files := [] }).1 (by decide),
   (ok_button_disabled_during_validation FileDialog.construct "x"
     { cancelled := true, paths := [], files := [] }).2⟩

/-- C4: every failed accept attempt leaves selectedFiles_ empty: the
empty-filename error in a non-Directory mode, the cancelled job (which
also rejects the dialog), and a validation error all end with
selectedFiles() empty. -/
theorem failed_accept_clears_selection (s : DialogState) (fileNames : String)
    (job : JobResult) :
    (fileNames = "" → s.fileMode ≠ FileMode.directory →
      FileDialog.selectedFilesAccessor (FileDialog.accept s fileNames).state = [])
    ∧ (job.cancelled = true →
      FileDialog.selectedFilesAccessor (FileDialog.onFileInfoJobFinished s job).state = [] ∧
      (FileDialog.onFileInfoJobFinished s job).rejected = true)
    ∧ (job.cancelled = false →
      (FileDialog.checkFiles s.fileMode job.paths job.files).isSome = true →
      FileDialog.selectedFilesAccessor (FileDialog.onFileInfoJobFinished s job).state = []) := by
  refine ⟨?_, ?_, ?_⟩
  · intro ht hm
    subst ht
    simp [FileDialog.accept, FileDialog.selectedFilesAccessor, hm]
  · intro hc
    simp [FileDialog.onFileInfoJobFinished, FileDialog.selectedFilesAccessor, hc]
  · intro hc hk
    cases hck : FileDialog.checkFiles s.fileMode job.paths job.files with
    | none => rw [hck] at hk; simp at hk
    | some e =>
      simp [FileDialog.onFileInfoJobFinished, FileDialog.selectedFilesAccessor, hc, hck]

/-- Witness for C4: the three failure outcomes at concrete inputs (empty
filename in AnyFile mode; a cancelled job; a job whose only path resolves
to a directory while files are being selected). -/
theorem failed_accept_clears_selection_witness :
    FileDialog.selectedFilesAccessor (FileDialog.accept FileDialog.construct "").state = [] ∧
    (FileDialog.selectedFilesAccessor (FileDialog.onFileInfoJobFinished FileDialog.construct
        { cancelled := true, paths := [], files := [] }).state = [] ∧
      (FileDialog.onFileInfoJobFinished FileDialog.construct
        { cancelled := true, paths := [], files := [] }).rejected = true) ∧
    FileDialog.selectedFilesAccessor (FileDialog.onFileInfoJobFinished FileDialog.construct
        { cancelled := false, paths := ["a"],
          files := [⟨"a", "a", true, false⟩] }).state = [] :=
  ⟨(failed_accept_clears_selection FileDialog.construct ""
      { cancelled := true, paths := [], files := [] }).1 rfl (by decide),
   (failed_accept_clears_selection FileDialog.construct ""
      { cancelled := true, paths := [], files := [] }).2.1 rfl,
   (failed_accept_clears_selection FileDialog.construct ""
      { cancelled := false, paths := ["a"], files := [⟨"a", "a", true, false⟩] }).2.2
      rfl (by decide)⟩

theorem applyOp_not_directoryOnly (s : DialogState) (op : DialogOp)
    (h : s.fileMode ≠ FileMode.directoryOnly) :
    (applyOp s op).fileMode ≠ FileMode.directoryOnly := by
  cases op with
  | setFileMode m =>
    simp only [applyOp, FileDialog.setFileMode, FileDialog.updateSelectionMode]
    by_cases hm : m = FileMode.directoryOnly <;> simp [hm]
  | setViewMode m =>
    simpa [applyOp, FileDialog.setViewMode, FileDialog.updateSelectionMode] using h
  | setLabelText label text =>
    cases label <;> simpa [applyOp, FileDialog.setLabelText] using h
  | selectNameFilter filter =>
    simp only [applyOp, FileDialog.selectNameFilter]
    split <;> simpa using h
  | setDirectoryPath directory =>
    simpa [applyOp, FileDialog.setDirectoryPath] using h
  | accept fileNames =>
    simpa [applyOp, accept_state_fileMode] using h
  | jobFinished job =>
    simpa [applyOp, onFileInfoJobFinished_state_fileMode] using h
  | reject => exact h

/-- C10: setFileMode maps the deprecated DirectoryOnly value to Directory
before storing it, and the constructor starts fileMode_ at AnyFile,
so after any sequence of modelled dialog operations starting from
construction, fileMode_ is never DirectoryOnly. -/
theorem fileMode_never_directoryOnly (ops : List DialogOp) :
    (ops.foldl applyOp FileDialog.construct).fileMode ≠ FileMode.directoryOnly := by
  suffices h : ∀ (l : List DialogOp) (s : DialogState),
      s.fileMode ≠ FileMode.directoryOnly →
      (l.foldl applyOp s).fileMode ≠ FileMode.directoryOnly from
    h ops FileDialog.construct (by decide)
  intro l
  induction l with
  | nil => intro s hs; exact hs
  | cons op rest ih =>
    intro s hs
    exact ih (applyOp s op) (applyOp_not_directoryOnly s op hs)

/-- Witness for C10: even passing DirectoryOnly to setFileMode does not
store DirectoryOnly. -/
theorem fileMode_never_directoryOnly_witness :
    (([DialogOp.setFileMode FileMode.directoryOnly].foldl applyOp
        FileDialog.construct).fileMode = FileMode.directoryOnly) = False := by
  rw [eq_false (fileMode_never_directoryOnly [DialogOp.setFileMode FileMode.directoryOnly])]

theorem checkFilesFrom_none_iff (fileMode : FileMode) (paths : List String)
    (files : List FileInfoM) :
    ∀ (fuel i : Nat),
      (checkFilesFrom fileMode paths files fuel i = none ↔
        ∀ j ∈ examinedFrom fileMode paths files fuel i,
          pathPasses fileMode paths files j = true) := by
  intro fuel
  induction fuel with
  | zero => intro i; simp [checkFilesFrom, examinedFrom]
  | succ fuel ih =>
    intro i
    rw [checkFilesFrom, examinedFrom]
    by_cases hlt : i < paths.length
    · simp only [if_pos hlt]
      cases hf : files[i]? with
      | none =>
        cases fileMode <;> simp [pathPasses, hf, ih]
      | some file =>
        by_cases hp : file.path = paths[i]?.getD ""
        · cases fileMode <;> cases hdir : file.isDir <;> cases hsc : file.isShortcut <;>
            simp [pathPasses, hf, hp, hdir, hsc, ih]
        · cases fileMode <;> simp [pathPasses, hf, hp, ih]
    · simp [hlt]

/-- C3 (amended): the accept flow reaches doAccept (emitting
filesSelected, and fileSelected when exactly one file is selected, then
QDialog::accept) iff the file-info job was not cancelled and every
selected path that the validation loop examines passes validation; when
an entry with no matching file info is met in AnyFile mode the loop skips
the following path, so an unexamined path may fail validation while the
dialog still accepts.  On every validation failure a modal critical
message box is shown instead and QDialog::accept is not called. -/
theorem fileDialog_accept_flow (s : DialogState) (job : JobResult) :
    ((FileDialog.onFileInfoJobFinished s job).accepted = true ↔
      (job.cancelled = false ∧
        ∀ j ∈ FileDialog.examinedIndices s.fileMode job.paths job.files,
          pathPasses s.fileMode job.paths job.files j = true))
    ∧ ((FileDialog.onFileInfoJobFinished s job).accepted = false →
        job.cancelled = false →
        (FileDialog.onFileInfoJobFinished s job).messageBox.isSome = true)
    ∧ ((FileDialog.onFileInfoJobFinished s job).accepted = true →
        (FileDialog.onFileInfoJobFinished s job).filesSelectedEmitted = some s.selectedFiles ∧
        (s.selectedFiles.length = 1 →
          (FileDialog.onFileInfoJobFinished s job).fileSelectedEmitted =
            s.selectedFiles.head?)) := by
  have hiff := checkFilesFrom_none_iff s.fileMode job.paths job.files job.paths.length 0
  cases hc : job.cancelled with
  | true =>
    simp [FileDialog.onFileInfoJobFinished, hc]
  | false =>
    cases hk : FileDialog.checkFiles s.fileMode job.paths job.files with
    | none =>
      rw [FileDialog.checkFiles] at hk
      have hall := hiff.mp hk
      simp [FileDialog.onFileInfoJobFinished, FileDialog.checkFiles,
        FileDialog.examinedIndices, FileDialog.doAccept, hc, hk]
      exact ⟨hall, fun h h2 => absurd h h2⟩
    | some e =>
      rw [FileDialog.checkFiles] at hk
      have hnall : ¬ (∀ j ∈ examinedFrom s.fileMode job.paths job.files job.paths.length 0,
          pathPasses s.fileMode job.paths job.files j = true) := by
        intro hall
        have h2 := hiff.mpr hall
        rw [hk] at h2
        exact Option.noConfusion h2
      simp [FileDialog.onFileInfoJobFinished, FileDialog.checkFiles,
        FileDialog.examinedIndices, hc, hk, hnall]

/-- C3 counterexample: with fileMode_ = AnyFile, a job over two paths
whose first entry has no matching file info reaches doAccept although the
second selected path fails validation (it resolves to a directory, which
is invalid outside Directory mode): the claimed equivalence "doAccept iff
every selected path passes validation" is false. -/
theorem fileDialog_accept_flow_counterexample :
    (FileDialog.onFileInfoJobFinished FileDialog.construct
      { cancelled := false, paths := ["a", "b"],
        files := [⟨"x", "x", false, false⟩, ⟨"b", "b", true, false⟩] }).accepted = true ∧
    ¬ (∀ j, j < 2 → pathPasses FileMode.anyFile ["a", "b"]
        [⟨"x", "x", false, false⟩, ⟨"b", "b", true, false⟩] j = true) := by
  decide

/-- Witness for C3's amended theorem at a job whose single path resolves
to an ordinary file. -/
theorem fileDialog_accept_flow_witness :
    (FileDialog.onFileInfoJobFinished FileDialog.construct
      { cancelled := false, paths := ["a"],
        files := [⟨"a", "a", false, false⟩] }).accepted = true :=
  (fileDialog_accept_flow FileDialog.construct
    { cancelled := false, paths := ["a"], files := [⟨"a", "a", false, false⟩] }).1.mpr
    ⟨rfl, by decide⟩

theorem checkFilesFrom_suffix_congr (fileMode : FileMode)
    (paths paths2 : List String) (files files2 : List FileInfoM)
    (hp : paths.length = paths2.length) :
    ∀ (fuel i : Nat),
      (∀ j, i ≤ j → paths[j]? = paths2[j]?) →
      (∀ j, i ≤ j → files[j]? = files2[j]?) →
      checkFilesFrom fileMode paths files fuel i =
        checkFilesFrom fileMode paths2 files2 fuel i := by
  intro fuel
  induction fuel with
  | zero => intro i _ _; rfl
  | succ fuel ih =>
    intro i hpa hfa
    rw [checkFilesFrom, checkFilesFrom]
    by_cases hlt : i < paths.length
    · rw [if_pos hlt, if_pos (hp ▸ hlt)]
      rw [← hpa i (Nat.le_refl i), ← hfa i (Nat.le_refl i)]
      cases hf : files[i]? with
      | none =>
        by_cases hm : fileMode = FileMode.anyFile
        · subst hm
          simp only [if_pos rfl]
          exact ih (i + 2) (fun j hj => hpa j (by omega)) (fun j hj => hfa j (by omega))
        · simp [hm]
      | some file =>
        by_cases hne : file.path = paths[i]?.getD ""
        · by_cases hd : fileMode = FileMode.directory
          · subst hd
            cases hdir : file.isDir with
            | true =>
              simp [hne, hdir]
              exact ih (i + 1) (fun j hj => hpa j (by omega)) (fun j hj => hfa j (by omega))
            | false => simp [hne, hdir]
          · cases hds : (file.isDir || file.isShortcut) with
            | true => simp [hne, hd, hds]
            | false =>
              simp [hne, hd, hds]
              exact ih (i + 1) (fun j hj => hpa j (by omega)) (fun j hj => hfa j (by omega))
        · by_cases hm : fileMode = FileMode.anyFile
          · subst hm
            simp [hne]
            exact ih (i + 2) (fun j hj => hpa j (by omega)) (fun j hj => hfa j (by omega))
          · simp [hne, hm]
    · rw [if_neg hlt, if_neg (fun h2 => hlt (hp ▸ h2))]

/-- C7: when entry i of the job's path list has no matching file info and
fileMode_ is AnyFile, the ++i inside the loop body plus the loop increment
advance the index by two, so the path at position i+1 is never examined:
the outcome of the validation loop from index i is unchanged by replacing
the path and file-info entries at position i+1 with anything (keeping the
list lengths), i.e. the existence and type checks of that path are
skipped. -/
theorem checkFilesFrom_skips_after_missing (paths paths2 : List String)
    (files files2 : List FileInfoM) (fuel i : Nat)
    (hp : paths.length = paths2.length)
    (_hf : files.length = files2.length)
    (hpa : ∀ j, j ≠ i + 1 → paths[j]? = paths2[j]?)
    (hfa : ∀ j, j ≠ i + 1 → files[j]? = files2[j]?)
    (hmiss : missingAt paths files i = true) :
    checkFilesFrom FileMode.anyFile paths files fuel i =
      checkFilesFrom FileMode.anyFile paths2 files2 fuel i := by
  cases fuel with
  | zero => rfl
  | succ fuel =>
    rw [checkFilesFrom, checkFilesFrom]
    by_cases hlt : i < paths.length
    · rw [if_pos hlt, if_pos (hp ▸ hlt)]
      rw [← hpa i (by omega), ← hfa i (by omega)]
      unfold missingAt at hmiss
      cases hfi : files[i]? with
      | none =>
        simp only [if_pos rfl]
        exact checkFilesFrom_suffix_congr FileMode.anyFile paths paths2 files files2 hp
          fuel (i + 2) (fun j hj => hpa j (by omega)) (fun j hj => hfa j (by omega))
      | some file =>
        rw [hfi] at hmiss
        have hne : file.path ≠ paths[i]?.getD "" := by
          simpa using of_decide_eq_true hmiss
        simp [hne]
        exact checkFilesFrom_suffix_congr FileMode.anyFile paths paths2 files files2 hp
          fuel (i + 2) (fun j hj => hpa j (by omega)) (fun j hj => hfa j (by omega))
    · rw [if_neg hlt, if_neg (fun h2 => hlt (hp ▸ h2))]

/-- Witness for C7: with the first entry missing in AnyFile mode, changing
the second entry from a directory to a shortcut with a different path does
not change the loop's outcome. -/
theorem checkFilesFrom_skips_after_missing_witness :
    checkFilesFrom FileMode.anyFile ["a", "b"]
        [⟨"x", "x", false, false⟩, ⟨"b", "b", true, false⟩] 2 0 =
      checkFilesFrom FileMode.anyFile ["a", "c"]
        [⟨"x", "x", false, false⟩, ⟨"c", "c", false, true⟩] 2 0 :=
  checkFilesFrom_skips_after_missing ["a", "b"] ["a", "c"]
    [⟨"x", "x", false, false⟩, ⟨"b", "b", true, false⟩]
    [⟨"x", "x", false, false⟩, ⟨"c", "c", false, true⟩] 2 0
    (by decide) (by decide)
    (by intro j hj
        match j with
        | 0 => rfl
        | 1 => exact absurd rfl hj
        | j + 2 => rfl)
    (by intro j hj
        match j with
        | 0 => rfl
        | 1 => exact absurd rfl hj
        | j + 2 => rfl)
    (by decide)
